import Mathlib

/-!
Verification of the `roblox-presence-api` server (src/server.js, the
"v6-ultra" revision, which is the version the specification describes).

The server is a single-threaded express application whose handlers run to
completion one at a time; we embed each HTTP handler as a pure function from
a request and a `ServerState` to a new `ServerState` plus a response value,
with the wall clock `Date.now()` passed in as an explicit `now : Int`
(milliseconds).  JavaScript objects used as dictionaries become functions
`String → Option α`; JS truthiness of strings is `s ≠ ""` and of numbers is
`n ≠ 0`, and the code only ever uses those observations.  The HMAC, base64url
and JSON codecs live in node's `crypto`/`JSON` (outside the repository), so
they are abstracted as a `TokenCrypto` record of opaque-to-us functions;
theorems that need codec facts (round trips, dot-freeness of base64 output)
take them as hypotheses.
-/

namespace RPA

/-- Milliseconds of wall time, as returned by `Date.now()` (a JS number;
the code only adds, subtracts and compares these, so `Int` is faithful). -/
abbrev Ms := Int

/-- Model of JavaScript `String.prototype.toLowerCase` (character-wise). -/
def jsToLower (s : String) : String := String.mk (s.data.map Char.toLower)

/-- Model of JavaScript `String.prototype.toUpperCase` (character-wise). -/
def jsToUpper (s : String) : String := String.mk (s.data.map Char.toUpper)

/-- Model of JavaScript `String.prototype.trim`. -/
def jsTrim (s : String) : String :=
  String.mk (((s.data.dropWhile Char.isWhitespace).reverse.dropWhile Char.isWhitespace).reverse)

/-- Helper for `jsSplitDot`: splits a character list at each `'.'`. -/
def splitDotAux : List Char → List Char → List String
  | [], acc => [String.mk acc.reverse]
  | c :: rest, acc =>
    if c = '.' then String.mk acc.reverse :: splitDotAux rest []
    else splitDotAux rest (c :: acc)

/-- Model of JavaScript `token.split(".")` (used by `verifyWebToken`). -/
def jsSplitDot (s : String) : List String := splitDotAux s.data []

/-- Pointwise update of a JS object used as a dictionary
(`obj[k] = v` / `delete obj[k]`). -/
def mset {α : Type} (m : String → Option α) (k : String) (v : Option α) :
    String → Option α :=
  fun x => if x = k then v else m x

theorem mset_same {α : Type} (m : String → Option α) (k : String) (v : Option α) :
    mset m k v k = v := by simp [mset]

theorem mset_other {α : Type} (m : String → Option α) (k : String) (v : Option α)
    (x : String) (h : x ≠ k) : mset m k v x = m x := by simp [mset, h]

/-- Presence record (`presence[key] = { inGame, havePass, updatedAt }`). -/
structure PresenceRec where
  inGame : Bool
  havePass : Bool
  updatedAt : Ms
deriving DecidableEq

/-- Pairing record (`sessions[code] = { username, havePass, exp }`). -/
structure SessionRec where
  username : String
  havePass : Bool
  exp : Ms
deriving DecidableEq

/-- Event record in a radio queue (open JS record; the fields that any code
path reads are `type`, `target`, `muted`, `reason`, `ts`; absent fields are
`none`). -/
structure RadioEv where
  type : String
  target : Option String
  muted : Option Bool
  reason : Option String
  ts : Ms
deriving DecidableEq

/-- Radio-state snapshot (`radioState[key]`).  JS numbers that are known
finite are modelled as rationals. -/
structure RadioStateRec where
  trackIndex : ℚ
  trackName : String
  positionAt : ℚ
  isPlaying : Bool
  muted : Bool
  serverTs : Ms
  updatedAt : Ms
deriving DecidableEq

/-- Fixed-window rate-limit entry (`hits.get(k) = { count, resetAt }`). -/
structure RLEntry where
  count : Nat
  resetAt : Ms
deriving DecidableEq

/-- Decoded web-token payload `{ u, iat, exp }`.  The code observes `iat`
and `exp` only through truthiness (`0`, `NaN` and absence are all falsy) and
comparisons, so an absent or zero field is represented by `0`; an absent or
empty `u` is `""`. -/
structure TokenPayload where
  u : String
  iat : Ms
  exp : Ms
deriving DecidableEq

/-- The node `crypto`/`JSON`/base64url collaborators used by the token code,
abstracted: `hmac secret msg` is the HMAC-SHA256 digest byte list,
`encodePayload` is `b64url(JSON.stringify ·)`, `decodePayload` is
`JSON.parse(b64urlDecode ·)` returning `none` on a parse failure or a
non-object, `b64encBytes`/`b64decBytes` are base64url over digest bytes
(`b64decBytes` includes the re-padding done inline in `verifyWebToken`). -/
structure TokenCrypto where
  hmac : String → String → List Nat
  encodePayload : TokenPayload → String
  decodePayload : String → Option TokenPayload
  b64encBytes : List Nat → String
  b64decBytes : String → List Nat

/-- Environment of the process: env vars and the crypto collaborators. -/
structure Config where
  robloxServerKey : String
  webTokenSecret : String
  maxSsePerUser : Nat
  maxSsePerIp : Nat
  tc : TokenCrypto

/-- The module-level mutable maps of server.js.  SSE subscriber sets are
lists of abstract connection identifiers (absent key = empty list, which the
code cannot distinguish from a present empty set). -/
structure ServerState where
  presence : String → Option PresenceRec
  sessions : String → Option SessionRec
  sessionsByUser : String → Option String
  radioQueue : String → Option (List RadioEv)
  radioState : String → Option RadioStateRec
  tokenRevokedAt : String → Option Ms
  hits : String → Option RLEntry
  sseClients : String → List Nat
  sseIpCount : String → Option Nat

/-- The state at process start: every map empty. -/
def emptyState : ServerState :=
  ⟨fun _ => none, fun _ => none, fun _ => none, fun _ => none, fun _ => none,
   fun _ => none, fun _ => none, fun _ => [], fun _ => none⟩

def SESSION_TTL_MS : Ms := 2 * 60 * 1000
def RADIO_TTL_MS : Ms := 5 * 60 * 1000
def STATE_TTL_MS : Ms := 25 * 1000
def STATE_MIN_GAP_MS : Ms := 700
def WEB_TOKEN_TTL_MS : Ms := 10 * 60 * 1000

/-- The `LIMITS` table: window in ms and max hits per window, per scope. -/
def LIMITS : String → Option (Ms × Nat) := fun s =>
  if s = "verify" then some (15000, 12)
  else if s = "sseOpenIp" then some (60000, 60)
  else if s = "sseOpenUser" then some (60000, 60)
  else if s = "joinIp" then some (10000, 25)
  else if s = "muteIp" then some (10000, 25)
  else if s = "syncIp" then some (10000, 40)
  else if s = "stateIp" then some (10000, 80)
  else if s = "activeIp" then some (10000, 40)
  else if s = "pollIp" then some (10000, 200)
  else if s = "presenceIp" then some (10000, 200)
  else none

/-- `rlKey(scope, a, b)`. -/
def rlKey (scope a b : String) : String := scope ++ ":" ++ a ++ ":" ++ b

/-- `rateLimit(scope, req, res, keyA, keyB)`: returns whether the request was
rejected (429) together with the updated `hits` map.  The incremented entry
is stored even when the request is rejected, exactly as in the source. -/
def rateLimit (scope keyA keyB : String) (now : Ms)
    (hits : String → Option RLEntry) : Bool × (String → Option RLEntry) :=
  match LIMITS scope with
  | none => (false, hits)
  | some cfg =>
    let k := rlKey scope keyA keyB
    let e : RLEntry :=
      match hits k with
      | some e => if e.resetAt ≤ now then ⟨0, now + cfg.1⟩ else e
      | none => ⟨0, now + cfg.1⟩
    let e' : RLEntry := ⟨e.count + 1, e.resetAt⟩
    (decide (e'.count > cfg.2), mset hits k (some e'))

/-- The 32-character ambiguity-free code alphabet. -/
def codeAlphabet : List Char := "ABCDEFGHJKLMNPQRSTUVWXYZ23456789".data

/-- `genCode(len)`: one character per random draw; JS computes
`Math.floor(Math.random() * 32)`, an index in `[0, 32)`, modelled by
`r % 32` over an arbitrary draw `r : Nat`.  The caller's `len` is the length
of the draw list. -/
def genCode (draws : List Nat) : String :=
  String.mk (draws.map (fun r => codeAlphabet.getD (r % 32) 'A'))

theorem genCode_length (draws : List Nat) :
    (genCode draws).length = draws.length := by
  simp [genCode, String.length]

theorem genCode_alphabet (draws : List Nat) :
    ∀ c ∈ (genCode draws).data, c ∈ codeAlphabet := by
  intro c hc
  simp only [genCode, String.mk, List.mem_map] at hc
  obtain ⟨r, _, rfl⟩ := hc
  have hlt : r % 32 < codeAlphabet.length := by
    have : r % 32 < 32 := Nat.mod_lt _ (by decide)
    simpa [codeAlphabet] using this
  rw [List.getD_eq_getElem _ _ hlt]
  exact List.getElem_mem hlt

/-- Result of `verifyWebToken`: `{ok:true, username, exp}` or `{ok:false, error}`. -/
inductive TokenResult
  | ok (username : String) (exp : Ms)
  | err (e : String)
deriving DecidableEq

/-- `makeWebToken(usernameLower)`: `null` without a secret, otherwise
`payload "." b64url(hmac(secret, payload))`. -/
def makeWebToken (cfg : Config) (now : Ms) (usernameLower : String) : Option String :=
  if cfg.webTokenSecret = "" then none
  else
    let payload := cfg.tc.encodePayload ⟨usernameLower, now, now + WEB_TOKEN_TTL_MS⟩
    some (payload ++ "." ++ cfg.tc.b64encBytes (cfg.tc.hmac cfg.webTokenSecret payload))

/-- `verifyWebToken(token)`.  A `none` token stands for a JS falsy or
non-string token value. -/
def verifyWebToken (cfg : Config) (revokedAt : String → Option Ms) (now : Ms)
    (token : Option String) : TokenResult :=
  if cfg.webTokenSecret = "" then .err "token_disabled"
  else
    match token with
    | none => .err "missing_token"
    | some tk =>
      if tk = "" then .err "missing_token"
      else
        match jsSplitDot tk with
        | [payload, sigB64] =>
          let expectedSig := cfg.tc.hmac cfg.webTokenSecret payload
          let gotSig := cfg.tc.b64decBytes sigB64
          if gotSig.length ≠ expectedSig.length then .err "bad_signature"
          else if gotSig ≠ expectedSig then .err "bad_signature"
          else
            match cfg.tc.decodePayload payload with
            | none => .err "bad_payload"
            | some p =>
              if p.u = "" ∨ p.exp = 0 then .err "bad_payload"
              else if p.exp ≤ now then .err "token_expired"
              else
                let uname := jsToLower p.u
                if p.iat ≠ 0 ∧ p.iat < (revokedAt uname).getD 0 then .err "token_revoked"
                else .ok uname p.exp
        | _ => .err "bad_token_format"

/-- Result of `requireTokenForUser`: pass, a 401 with the token error, or the
403 `token_user_mismatch`. -/
inductive AuthResult
  | ok (username : String)
  | err401 (e : String)
  | mismatch
deriving DecidableEq

/-- The header / query / body token selection chain (JS truthiness: an empty
string falls through to the next source). -/
def firstTruthy (l : List (Option String)) : Option String :=
  l.findSome? (fun o => match o with
    | some s => if s = "" then none else some s
    | none => none)

/-- `requireTokenForUser(req, res, usernameLower)`. -/
def requireTokenForUser (cfg : Config) (revokedAt : String → Option Ms) (now : Ms)
    (headerToken qToken bodyToken : Option String) (usernameLower : String) : AuthResult :=
  if cfg.webTokenSecret = "" then .ok usernameLower
  else
    match verifyWebToken cfg revokedAt now
        (firstTruthy [headerToken, qToken, bodyToken]) with
    | .err e => .err401 e
    | .ok u _ => if u ≠ usernameLower then .mismatch else .ok u

/-- `presence[uname] && presence[uname].inGame`. -/
def presenceInGame (st : ServerState) (u : String) : Bool :=
  match st.presence u with
  | some p => p.inGame
  | none => false

/-- `sseSendToUser(username, eventName, dataObj)`: returns whether any
subscriber set was found, and the frames written (one per subscriber). -/
def sseSendToUser (st : ServerState) (username evName : String) (ev : RadioEv) :
    Bool × List (Nat × String × RadioEv) :=
  let key := jsToLower username
  let set := st.sseClients key
  if set = [] then (false, [])
  else (true, set.map (fun cid => (cid, evName, ev)))

/-- Outcome of `sseAddClient`: admitted, rejected on the per-IP count, or
rejected on the per-user set size (the source checks the IP cap first). -/
inductive AddClientResult
  | added
  | rejIp
  | rejUser
deriving DecidableEq

/-- `sseAddClient(username, res, ip)`. -/
def sseAddClient (cfg : Config) (username : String) (cid : Nat) (ip : String)
    (st : ServerState) : AddClientResult × ServerState :=
  let key := jsToLower username
  let ipCount := (st.sseIpCount ip).getD 0
  if ipCount ≥ cfg.maxSsePerIp then (.rejIp, st)
  else
    let set := st.sseClients key
    if set.length ≥ cfg.maxSsePerUser then (.rejUser, st)
    else (.added, { st with
      sseClients := fun k => if k = key then cid :: set else st.sseClients k,
      sseIpCount := mset st.sseIpCount ip (some (ipCount + 1)) })

/-- `cleanupSessions()`: drops every session with `exp ≤ now`, and the
matching secondary-index entry (only when it points at the dropped code and
the stored username is truthy). -/
def cleanupSessions (now : Ms) (st : ServerState) : ServerState :=
  { st with
    sessions := fun c =>
      match st.sessions c with
      | some s => if s.exp ≤ now then none else some s
      | none => none,
    sessionsByUser := fun u =>
      match st.sessionsByUser u with
      | none => none
      | some c =>
        match st.sessions c with
        | none => some c
        | some s => if s.exp ≤ now ∧ s.username ≠ "" ∧ s.username = u then none else some c }

/-- Response of `POST /presence`. -/
inductive PresenceResp
  | rateLimited
  | badRequest
  | okTrue
deriving DecidableEq

/-- `POST /presence` handler. -/
def presencePost (ip username : String) (inGame : Option Bool) (havePass : Bool)
    (now : Ms) (st : ServerState) : ServerState × PresenceResp :=
  let rl := rateLimit "presenceIp" ip "" now st.hits
  let st := { st with hits := rl.2 }
  if rl.1 then (st, .rateLimited)
  else match inGame with
  | none => (st, .badRequest)
  | some g =>
    if username = "" then (st, .badRequest)
    else
      ({ st with presence := mset st.presence (jsToLower username) (some ⟨g, havePass, now⟩) },
        .okTrue)

/-- Response of `POST /session/create`. -/
inductive CreateResp
  | unauthorized
  | badRequest
  | notInGame
  | genFailed
  | success (code : String) (exp : Ms)
deriving DecidableEq

/-- State, response and SSE frames written by `POST /session/create`. -/
structure CreateOut where
  state : ServerState
  resp : CreateResp
  writes : List (Nat × String × RadioEv)

/-- The `KICK{reason:"new_code"}` event pushed on re-pairing. -/
def kickEvent (now : Ms) : RadioEv := ⟨"KICK", none, none, some "new_code", now⟩

/-- The code-generation loop: up to 12 attempts, the first code not already
in `sessions` wins; `gen i` is the list of random draws of attempt `i`. -/
def pickFreshCode (sessions : String → Option SessionRec) (gen : Nat → List Nat) :
    Option String :=
  ((List.range 12).find? (fun i => (sessions (genCode (gen i))).isNone)).map
    (fun i => genCode (gen i))

/-- The pre-emption step of `POST /session/create`:
`if (prev && sessions[prev]) delete sessions[prev]`. -/
def sessionsAfterPreempt (st : ServerState) (uname : String) :
    String → Option SessionRec :=
  fun c => match st.sessionsByUser uname with
    | some p => if c = p then none else st.sessions c
    | none => st.sessions c

/-- `POST /session/create` handler. -/
def sessionCreate (cfg : Config) (serverKey : Option String) (username : String)
    (havePass : Bool) (gen : Nat → List Nat) (now : Ms) (st : ServerState) : CreateOut :=
  if cfg.robloxServerKey = "" ∨ serverKey ≠ some cfg.robloxServerKey then
    ⟨st, .unauthorized, []⟩
  else if username = "" then ⟨st, .badRequest, []⟩
  else
    let st := cleanupSessions now st
    let uname := jsToLower username
    if ¬ presenceInGame st uname then ⟨st, .notInGame, []⟩
    else
      let st := { st with
        sessions := sessionsAfterPreempt st uname,
        sessionsByUser := mset st.sessionsByUser uname none }
      let st := { st with tokenRevokedAt := mset st.tokenRevokedAt uname (some now) }
      let st := { st with radioState := mset st.radioState uname none }
      let send := sseSendToUser st uname "radio" (kickEvent now)
      match pickFreshCode st.sessions gen with
      | none => ⟨st, .genFailed, send.2⟩
      | some code =>
        ⟨{ st with
            sessions := mset st.sessions code (some ⟨uname, havePass, now + SESSION_TTL_MS⟩),
            sessionsByUser := mset st.sessionsByUser uname (some code) },
          .success code (now + SESSION_TTL_MS), send.2⟩

/-- Response of `POST /session/verify`. -/
inductive VerifyResp
  | rateLimited
  | badRequest
  | invalidOrExpired
  | notInGame
  | success (username : String) (havePass : Bool) (token : Option String) (tokenExp : Option Ms)
deriving DecidableEq

/-- `POST /session/verify` handler. -/
def sessionVerify (cfg : Config) (ip code : String) (now : Ms) (st : ServerState) :
    ServerState × VerifyResp :=
  let rl := rateLimit "verify" ip "" now st.hits
  let st := { st with hits := rl.2 }
  if rl.1 then (st, .rateLimited)
  else if code = "" then (st, .badRequest)
  else
    let st := cleanupSessions now st
    let key := jsToUpper (jsTrim code)
    match st.sessions key with
    | none => (st, .invalidOrExpired)
    | some sess =>
      let st' := { st with
        sessions := mset st.sessions key none,
        sessionsByUser :=
          if st.sessionsByUser sess.username = some key
          then mset st.sessionsByUser sess.username none
          else st.sessionsByUser }
      if ¬ presenceInGame st sess.username then (st', .notInGame)
      else
        let token := makeWebToken cfg now sess.username
        (st', .success sess.username sess.havePass token
          (if token.isSome then some (now + WEB_TOKEN_TTL_MS) else none))

/-- Response of the mute endpoints. -/
inductive MuteResp
  | rateLimited
  | unauthorized
  | badRequest
  | tokenErr (e : String)
  | mismatch
  | notInGame
  | ignored
  | okPushed (pushed : Bool)
deriving DecidableEq

/-- State, response and SSE frames of a mute endpoint. -/
structure MuteOut where
  state : ServerState
  resp : MuteResp
  writes : List (Nat × String × RadioEv)

/-- The shared dedup-and-append tail of `POST /radio/mute` and
`POST /radio/mute/server` (textually identical in the source). -/
def muteCore (key : String) (muted : Bool) (now : Ms) (st : ServerState) : MuteOut :=
  let q := (st.radioQueue key).getD []
  let st := { st with radioQueue := mset st.radioQueue key (some q) }
  let suppress := match q.getLast? with
    | some l => match l.muted with
      | some m => decide (m = muted) && decide (now - l.ts < 1500)
      | none => false
    | none => false
  if suppress then ⟨st, .ignored, []⟩
  else
    let ev : RadioEv :=
      ⟨if muted then "RADIO_MUTE" else "RADIO_UNMUTE", some "web", some muted, none, now⟩
    let send := sseSendToUser st key "radio" ev
    ⟨{ st with radioQueue := mset st.radioQueue key (some (q ++ [ev])) },
      .okPushed send.1, send.2⟩

/-- `POST /radio/mute` handler (token-authenticated). -/
def radioMute (cfg : Config) (ip username : String) (muted : Option Bool)
    (headerToken qToken bodyToken : Option String) (now : Ms) (st : ServerState) : MuteOut :=
  let rl := rateLimit "muteIp" ip "" now st.hits
  let st := { st with hits := rl.2 }
  if rl.1 then ⟨st, .rateLimited, []⟩
  else match muted with
  | none => ⟨st, .badRequest, []⟩
  | some m =>
    if username = "" then ⟨st, .badRequest, []⟩
    else
      let key := jsToLower username
      match requireTokenForUser cfg st.tokenRevokedAt now headerToken qToken bodyToken key with
      | .err401 e => ⟨st, .tokenErr e, []⟩
      | .mismatch => ⟨st, .mismatch, []⟩
      | .ok _ =>
        if ¬ presenceInGame st key then ⟨st, .notInGame, []⟩
        else muteCore key m now st

/-- `POST /radio/mute/server` handler (shared-key authenticated). -/
def radioMuteServer (cfg : Config) (ip : String) (serverKey : Option String)
    (username : String) (muted : Option Bool) (now : Ms) (st : ServerState) : MuteOut :=
  let rl := rateLimit "muteIp" ip "" now st.hits
  let st := { st with hits := rl.2 }
  if rl.1 then ⟨st, .rateLimited, []⟩
  else if cfg.robloxServerKey = "" ∨ serverKey ≠ some cfg.robloxServerKey then
    ⟨st, .unauthorized, []⟩
  else match muted with
  | none => ⟨st, .badRequest, []⟩
  | some m =>
    if username = "" then ⟨st, .badRequest, []⟩
    else
      let key := jsToLower username
      if ¬ presenceInGame st key then ⟨st, .notInGame, []⟩
      else muteCore key m now st

/-- Response of `GET /radio/sync/:username`. -/
inductive SyncResp
  | rateLimited
  | badRequest
  | tokenErr (e : String)
  | mismatch
  | success (events : List RadioEv)
deriving DecidableEq

/-- `e.target === "web"`. -/
def isWebEv (e : RadioEv) : Bool := e.target = some "web"

/-- `GET /radio/sync/:username` handler. -/
def radioSync (cfg : Config) (ip rawUsername : String)
    (headerToken qToken bodyToken : Option String) (now : Ms) (st : ServerState) :
    ServerState × SyncResp :=
  let rl := rateLimit "syncIp" ip "" now st.hits
  let st := { st with hits := rl.2 }
  if rl.1 then (st, .rateLimited)
  else
    let key := jsToLower rawUsername
    if key = "" then (st, .badRequest)
    else
      match requireTokenForUser cfg st.tokenRevokedAt now headerToken qToken bodyToken key with
      | .err401 e => (st, .tokenErr e)
      | .mismatch => (st, .mismatch)
      | .ok _ =>
        let events := (st.radioQueue key).getD []
        ({ st with
            radioQueue := mset st.radioQueue key (some (events.filter (fun e => !(isWebEv e)))) },
          .success (events.filter isWebEv))

/-- Response of `POST /radio/state`. -/
inductive StateResp
  | rateLimited
  | badRequest
  | tokenErr (e : String)
  | mismatch
  | notInGame
  | ignored
  | okStored
deriving DecidableEq

/-- `POST /radio/state` handler.  `trackIndex`/`positionSec` are `none` when
the request field is absent or `Number(·)` is not finite; `trackName` is
`none` when not a string; `isPlaying`/`muted` carry the `!!` coercion. -/
def radioStatePost (cfg : Config) (ip username : String)
    (trackIndex : Option ℚ) (trackName : Option String) (positionSec : Option ℚ)
    (isPlaying muted : Bool)
    (headerToken qToken bodyToken : Option String) (now : Ms) (st : ServerState) :
    ServerState × StateResp :=
  let rl := rateLimit "stateIp" ip "" now st.hits
  let st := { st with hits := rl.2 }
  if rl.1 then (st, .rateLimited)
  else if username = "" then (st, .badRequest)
  else
    let key := jsToLower username
    match requireTokenForUser cfg st.tokenRevokedAt now headerToken qToken bodyToken key with
    | .err401 e => (st, .tokenErr e)
    | .mismatch => (st, .mismatch)
    | .ok _ =>
      if ¬ presenceInGame st key then (st, .notInGame)
      else
        let prev := st.radioState key
        let gap := match prev with
          | some p => decide (p.updatedAt ≠ 0) && decide (now - p.updatedAt < STATE_MIN_GAP_MS)
          | none => false
        if gap then (st, .ignored)
        else
          let safePos : ℚ := match positionSec with
            | some q => if 0 ≤ q then q else 0
            | none => 0
          let snap : RadioStateRec :=
            ⟨(match trackIndex with
              | some v => v
              | none => match prev with | some p => p.trackIndex | none => 0),
             (match trackName with
              | some s => s
              | none => match prev with | some p => p.trackName | none => ""),
             safePos, isPlaying, muted, now, now⟩
          ({ st with radioState := mset st.radioState key (some snap) }, .okStored)

/-- Response of `GET /events/:username`. -/
inductive EventsResp
  | badRequest
  | rateLimitedIp
  | rateLimitedUser
  | tokenErr (e : String)
  | mismatch
  | capRejectedIp
  | capRejectedUser
  | admitted
deriving DecidableEq

/-- State, response and whether the `hello` frame was written for
`GET /events/:username`. -/
structure EventsOut where
  state : ServerState
  resp : EventsResp
  helloWritten : Bool

/-- `GET /events/:username` handler.  The `hello` frame is written right
after the token check and before `sseAddClient` runs, exactly as in the
source; `cid` is the fresh connection handle. -/
def eventsOpen (cfg : Config) (ip rawUsername : String)
    (headerToken qToken : Option String) (cid : Nat) (now : Ms) (st : ServerState) :
    EventsOut :=
  let username := jsToLower rawUsername
  if username = "" then ⟨st, .badRequest, false⟩
  else
    let rl1 := rateLimit "sseOpenIp" ip "open" now st.hits
    let st := { st with hits := rl1.2 }
    if rl1.1 then ⟨st, .rateLimitedIp, false⟩
    else
      let rl2 := rateLimit "sseOpenUser" username "open" now st.hits
      let st := { st with hits := rl2.2 }
      if rl2.1 then ⟨st, .rateLimitedUser, false⟩
      else
        match requireTokenForUser cfg st.tokenRevokedAt now headerToken qToken none username with
        | .err401 e => ⟨st, .tokenErr e, false⟩
        | .mismatch => ⟨st, .mismatch, false⟩
        | .ok _ =>
          let add := sseAddClient cfg username cid ip st
          match add.1 with
          | .rejIp => ⟨add.2, .capRejectedIp, true⟩
          | .rejUser => ⟨add.2, .capRejectedUser, true⟩
          | .added => ⟨add.2, .admitted, true⟩

/-! Helper lemmas about the JS string models. -/

theorem splitDotAux_no_dot (l acc : List Char) (h : '.' ∉ l) :
    splitDotAux l acc = [String.mk (acc.reverse ++ l)] := by
  induction l generalizing acc with
  | nil => simp [splitDotAux]
  | cons c rest ih =>
    have hc : ¬ c = '.' := fun e => h (e ▸ List.mem_cons_self c rest)
    simp only [splitDotAux, if_neg hc]
    rw [ih _ (fun hm => h (List.mem_cons_of_mem _ hm))]
    simp

theorem splitDotAux_dot (l m acc : List Char) (h : '.' ∉ l) :
    splitDotAux (l ++ '.' :: m) acc =
      String.mk (acc.reverse ++ l) :: splitDotAux m [] := by
  induction l generalizing acc with
  | nil => simp [splitDotAux]
  | cons c rest ih =>
    have hc : ¬ c = '.' := fun e => h (e ▸ List.mem_cons_self c rest)
    simp only [List.cons_append, splitDotAux, if_neg hc]
    rw [show rest.append ('.' :: m) = rest ++ '.' :: m from rfl,
      ih _ (fun hm => h (List.mem_cons_of_mem _ hm))]
    simp

theorem jsSplitDot_append (a b : String) (ha : '.' ∉ a.data) (hb : '.' ∉ b.data) :
    jsSplitDot (a ++ "." ++ b) = [a, b] := by
  have hdata : (a ++ "." ++ b).data = a.data ++ '.' :: b.data := by
    simp [String.data_append]
  rw [jsSplitDot, hdata, splitDotAux_dot _ _ _ ha, splitDotAux_no_dot _ _ hb]
  simp

theorem jsToLower_ne_empty (s : String) (h : s ≠ "") : jsToLower s ≠ "" := by
  intro he
  apply h
  have hd : s.data.map Char.toLower = ([] : List Char) := congrArg String.data he
  have hnil : s.data = [] := by
    cases hl : s.data with
    | nil => rfl
    | cons c r => rw [hl] at hd; simp at hd
  cases s with
  | mk d => cases hnil; rfl

theorem toNat_ofNat_valid (n : Nat) (h : n < 55296) : (Char.ofNat n).toNat = n := by
  rw [Char.ofNat, dif_pos (Or.inl h)]
  simp [Char.ofNatAux, Char.toNat, UInt32.ofNat', UInt32.toNat]

theorem charToLower_idem (c : Char) : Char.toLower (Char.toLower c) = Char.toLower c := by
  unfold Char.toLower
  by_cases h : c.toNat ≥ 65 ∧ c.toNat ≤ 90
  · simp only [if_pos h]
    have hval : (Char.ofNat (c.toNat + 32)).toNat = c.toNat + 32 :=
      toNat_ofNat_valid _ (by omega)
    rw [hval, if_neg (by omega : ¬ (c.toNat + 32 ≥ 65 ∧ c.toNat + 32 ≤ 90))]
  · simp [h]

theorem jsToLower_idem (s : String) : jsToLower (jsToLower s) = jsToLower s := by
  simp only [jsToLower, List.map_map]
  exact congrArg String.mk (List.map_congr_left (fun a _ => charToLower_idem a))

/-! Claim C3: token verification error ladder. -/

/-- Claim C3 (amended).  With no secret configured every verification
returns `token_disabled`.  Otherwise, for a token whose signature verifies
and whose payload decodes to a well-formed object, the result is
`token_expired` when `exp ≤ now`; past that, the revocation check applies
only when the payload's `iat` is truthy (nonzero): a nonzero
`iat < revokedAt[user]` is rejected with `token_revoked`, while a token
whose payload has `iat = 0` (or omits it) bypasses the revocation check
and verifies successfully. -/
theorem verifyWebToken_error_ladder :
    (∀ (cfg : Config) (rv : String → Option Ms) (n : Ms) (t : Option String),
        cfg.webTokenSecret = "" → verifyWebToken cfg rv n t = .err "token_disabled") ∧
    (∀ (cfg : Config) (revokedAt : String → Option Ms) (now : Ms)
        (tk payload sigB64 : String) (p : TokenPayload),
        cfg.webTokenSecret ≠ "" →
        jsSplitDot tk = [payload, sigB64] →
        cfg.tc.b64decBytes sigB64 = cfg.tc.hmac cfg.webTokenSecret payload →
        cfg.tc.decodePayload payload = some p →
        p.u ≠ "" → p.exp ≠ 0 →
        verifyWebToken cfg revokedAt now (some tk) =
          (if p.exp ≤ now then .err "token_expired"
           else if p.iat ≠ 0 ∧ p.iat < (revokedAt (jsToLower p.u)).getD 0 then
             .err "token_revoked"
           else .ok (jsToLower p.u) p.exp)) := by
  constructor
  · intro cfg rv n t h
    simp [verifyWebToken, h]
  · intro cfg revokedAt now tk payload sigB64 p hsec hsplit hsig hdec hu hexp
    have htk : tk ≠ "" := by
      intro he
      rw [he] at hsplit
      simp [jsSplitDot, splitDotAux] at hsplit
    rw [verifyWebToken, if_neg hsec]
    simp only [htk, if_neg, ite_false, hsplit, hsig, hdec]
    simp [hu, hexp]

/-- Claim C3, counterexample to the original wording: a signature-valid,
unexpired token whose payload carries `iat = 0` is accepted even though
`revokedAt[user] = 50 > 0 = iat`; the claim demands `token_revoked`. -/
def cfgIatZero : Config :=
  ⟨"", "s", 3, 10,
    ⟨fun _ _ => [7], fun _ => "P", fun _ => some ⟨"bob", 0, 100⟩,
     fun _ => "S", fun _ => [7]⟩⟩

theorem verifyWebToken_iat_zero_not_revoked :
    verifyWebToken cfgIatZero (fun _ => some 50) 10 (some "P.S") = .ok "bob" 100 ∧
    verifyWebToken cfgIatZero (fun _ => some 50) 10 (some "P.S") ≠ .err "token_revoked" := by
  constructor <;> decide

/-- Witness for the amended C3 theorem: a nonzero `iat` below the revocation
epoch is rejected with `token_revoked`. -/
def cfgIatFour : Config :=
  ⟨"", "s", 3, 10,
    ⟨fun _ _ => [7], fun _ => "P", fun _ => some ⟨"Bob", 4, 100⟩,
     fun _ => "S", fun _ => [7]⟩⟩

theorem verifyWebToken_error_ladder_witness :
    verifyWebToken cfgIatFour (fun _ => some 50) 5 (some "P.S") = .err "token_revoked" := by
  have h := verifyWebToken_error_ladder.2 cfgIatFour (fun _ => some 50) 5 "P.S" "P" "S"
    ⟨"Bob", 4, 100⟩ (by decide) (by decide) rfl rfl (by decide) (by decide)
  rw [h]
  decide

/-! Claim C4: mint / verify round trip. -/

/-- Claim C4.  With a secret configured, verifying the token minted at time
`t` for a (nonempty) username `U` succeeds and returns `U` lowercased, as
long as `now < t + WEB_TOKEN_TTL_MS` and the user's revocation epoch has not
advanced past `t`.  The base64url/JSON collaborators are assumed to round
trip and to emit dot-free strings (they always do outside the model). -/
theorem mint_verify_roundtrip
    (cfg : Config) (revokedAt : String → Option Ms) (U : String) (t now : Ms)
    (hsec : cfg.webTokenSecret ≠ "") (hU : U ≠ "") (ht : 0 ≤ t)
    (hdotp : '.' ∉ (cfg.tc.encodePayload ⟨U, t, t + WEB_TOKEN_TTL_MS⟩).data)
    (hdots : '.' ∉ (cfg.tc.b64encBytes (cfg.tc.hmac cfg.webTokenSecret
        (cfg.tc.encodePayload ⟨U, t, t + WEB_TOKEN_TTL_MS⟩))).data)
    (hdec : cfg.tc.decodePayload (cfg.tc.encodePayload ⟨U, t, t + WEB_TOKEN_TTL_MS⟩) =
        some ⟨U, t, t + WEB_TOKEN_TTL_MS⟩)
    (hrt : cfg.tc.b64decBytes (cfg.tc.b64encBytes (cfg.tc.hmac cfg.webTokenSecret
        (cfg.tc.encodePayload ⟨U, t, t + WEB_TOKEN_TTL_MS⟩))) =
        cfg.tc.hmac cfg.webTokenSecret (cfg.tc.encodePayload ⟨U, t, t + WEB_TOKEN_TTL_MS⟩))
    (hfresh : now < t + WEB_TOKEN_TTL_MS)
    (hrev : (revokedAt (jsToLower U)).getD 0 ≤ t) :
    verifyWebToken cfg revokedAt now (makeWebToken cfg t U) =
      .ok (jsToLower U) (t + WEB_TOKEN_TTL_MS) := by
  set payload := cfg.tc.encodePayload ⟨U, t, t + WEB_TOKEN_TTL_MS⟩ with hpay
  set sigStr := cfg.tc.b64encBytes (cfg.tc.hmac cfg.webTokenSecret payload) with hsigstr
  have hmk : makeWebToken cfg t U = some (payload ++ "." ++ sigStr) := by
    rw [makeWebToken, if_neg hsec]
  have htkne : payload ++ "." ++ sigStr ≠ "" := by
    intro he
    have := congrArg String.data he
    simp [String.data_append] at this
  have hsplit : jsSplitDot (payload ++ "." ++ sigStr) = [payload, sigStr] :=
    jsSplitDot_append _ _ hdotp hdots
  rw [hmk, verifyWebToken, if_neg hsec]
  simp only [if_neg htkne, hsplit, hrt, hdec]
  have hexpne : t + WEB_TOKEN_TTL_MS ≠ 0 := by
    intro h0
    rw [show WEB_TOKEN_TTL_MS = 600000 from by decide] at h0
    linarith
  have hnotexp : ¬ (t + WEB_TOKEN_TTL_MS ≤ now) := not_le.mpr hfresh
  simp only [hU, hexpne, hnotexp]
  have hnorev : ¬ (t ≠ 0 ∧ t < (revokedAt (jsToLower U)).getD 0) := by
    rintro ⟨_, hlt⟩
    exact absurd hrev (not_le.mpr hlt)
  simp [hnorev]

/-- Witness for C4 at a concrete crypto environment, username and clock. -/
def cfgRoundTrip : Config :=
  ⟨"", "s", 3, 10,
    ⟨fun _ _ => [7], fun _ => "P", fun _ => some ⟨"Bob", 5, 5 + WEB_TOKEN_TTL_MS⟩,
     fun _ => "S", fun _ => [7]⟩⟩

theorem mint_verify_roundtrip_witness :
    verifyWebToken cfgRoundTrip (fun _ => none) 6 (makeWebToken cfgRoundTrip 5 "Bob") =
      .ok (jsToLower "Bob") (5 + WEB_TOKEN_TTL_MS) :=
  mint_verify_roundtrip cfgRoundTrip (fun _ => none) "Bob" 5 6
    (by decide) (by decide) (by decide) (by decide) (by decide) rfl rfl
    (by decide) (by decide)

/-! Claim C10: behaviour with an empty WEB_TOKEN_SECRET. -/

/-- Claim C10.  With no token secret configured, a verify of a present,
unexpired code for an in-game user still answers `ok:true` with
`token: null` and `tokenExp: null`, and still deletes the pairing record
(primary and matching secondary entry); and `requireTokenForUser` then
authorizes any caller for any username without looking at a token. -/
theorem noSecret_degrades (cfg : Config) (hsec : cfg.webTokenSecret = "")
    (ip code : String) (now : Ms) (st : ServerState) (sess : SessionRec)
    (hrl : (rateLimit "verify" ip "" now st.hits).1 = false)
    (hcode : code ≠ "")
    (hfound : st.sessions (jsToUpper (jsTrim code)) = some sess)
    (hunexp : now < sess.exp)
    (hgame : presenceInGame st sess.username = true) :
    (sessionVerify cfg ip code now st).2 =
      .success sess.username sess.havePass none none ∧
    (sessionVerify cfg ip code now st).1.sessions (jsToUpper (jsTrim code)) = none ∧
    (sessionVerify cfg ip code now st).1.sessionsByUser sess.username ≠
      some (jsToUpper (jsTrim code)) ∧
    (∀ (rv : String → Option Ms) (n : Ms) (h q b : Option String) (u : String),
        requireTokenForUser cfg rv n h q b u = .ok u) := by
  have hnl : ¬ (sess.exp ≤ now) := not_le.mpr hunexp
  have hmk : makeWebToken cfg now sess.username = none := by
    simp [makeWebToken, hsec]
  have hf2 : (cleanupSessions now
      { st with hits := (rateLimit "verify" ip "" now st.hits).2 }).sessions
      (jsToUpper (jsTrim code)) = some sess := by
    simp [cleanupSessions, hfound, hnl]
  have hg2 : presenceInGame (cleanupSessions now
      { st with hits := (rateLimit "verify" ip "" now st.hits).2 }) sess.username = true := by
    simpa [presenceInGame, cleanupSessions] using hgame
  refine ⟨?_, ?_, ?_, ?_⟩
  · simp [sessionVerify, hrl, hcode, hf2, hg2, hmk]
  · simp [sessionVerify, hrl, hcode, hf2, hg2, mset]
  · simp only [sessionVerify, hrl, Bool.false_eq_true, if_false, hcode, ite_false, hf2, hg2,
      not_true, not_false_eq_true]
    by_cases hc : (cleanupSessions now
        { st with hits := (rateLimit "verify" ip "" now st.hits).2 }).sessionsByUser
        sess.username = some (jsToUpper (jsTrim code))
    · simp [hc, mset]
    · simp [hc]
  · intro rv n h q b u
    simp [requireTokenForUser, hsec]

/-- A configuration with an empty token secret (test/dev mode). -/
def cfgNoSecret : Config :=
  ⟨"k", "", 3, 10, ⟨fun _ _ => [], fun _ => "", fun _ => none, fun _ => "", fun _ => []⟩⟩

/-- A state holding one live pairing for alice, who is in game. -/
def stOnePairing : ServerState :=
  { emptyState with
    sessions := mset emptyState.sessions "ABC1234" (some ⟨"alice", false, 100⟩),
    sessionsByUser := mset emptyState.sessionsByUser "alice" (some "ABC1234"),
    presence := mset emptyState.presence "alice" (some ⟨true, false, 0⟩) }

theorem noSecret_degrades_witness :
    (sessionVerify cfgNoSecret "1.1.1.1" " abc1234 " 50 stOnePairing).2 =
      .success "alice" false none none ∧
    (sessionVerify cfgNoSecret "1.1.1.1" " abc1234 " 50 stOnePairing).1.sessions
      "ABC1234" = none ∧
    (sessionVerify cfgNoSecret "1.1.1.1" " abc1234 " 50 stOnePairing).1.sessionsByUser
      "alice" ≠ some "ABC1234" ∧
    requireTokenForUser cfgNoSecret (fun _ => none) 0 none none none "bob" = .ok "bob" := by
  obtain ⟨h1, h2, h3, h4⟩ := noSecret_degrades cfgNoSecret rfl "1.1.1.1" " abc1234 " 50
    stOnePairing ⟨"alice", false, 100⟩ (by decide) (by decide) (by decide) (by decide)
    (by decide)
  exact ⟨h1, h2, h3, h4 (fun _ => none) 0 none none none "bob"⟩

/-! Claim C2: a redeemed (or in-game-failed) code is deleted atomically and
cannot be verified twice. -/

/-- Claim C2.  For a verify whose normalized code is present and unexpired
(and which is not rate limited), the pairing record — primary entry and the
matching secondary-index entry — is deleted in the same step that produces
the response, whether the response is the success carrying the token or the
`not_in_game` soft failure; a second (non-rate-limited) verify of the same
code then returns `invalid_or_expired`. -/
theorem redeem_deletes_and_second_fails
    (cfg : Config) (ip code : String) (now : Ms) (st : ServerState) (sess : SessionRec)
    (hrl : (rateLimit "verify" ip "" now st.hits).1 = false)
    (hcode : code ≠ "")
    (hfound : st.sessions (jsToUpper (jsTrim code)) = some sess)
    (hunexp : now < sess.exp)
    (ip2 : String) (now2 : Ms)
    (hrl2 : (rateLimit "verify" ip2 "" now2
        (sessionVerify cfg ip code now st).1.hits).1 = false) :
    (sessionVerify cfg ip code now st).1.sessions (jsToUpper (jsTrim code)) = none ∧
    (sessionVerify cfg ip code now st).1.sessionsByUser sess.username ≠
      some (jsToUpper (jsTrim code)) ∧
    (presenceInGame st sess.username = true →
      (sessionVerify cfg ip code now st).2 =
        .success sess.username sess.havePass (makeWebToken cfg now sess.username)
          (if (makeWebToken cfg now sess.username).isSome then some (now + WEB_TOKEN_TTL_MS)
           else none)) ∧
    (presenceInGame st sess.username = false →
      (sessionVerify cfg ip code now st).2 = .notInGame) ∧
    (sessionVerify cfg ip2 code now2 (sessionVerify cfg ip code now st).1).2 =
      .invalidOrExpired := by
  have hnl : ¬ (sess.exp ≤ now) := not_le.mpr hunexp
  have hf2 : (cleanupSessions now
      { st with hits := (rateLimit "verify" ip "" now st.hits).2 }).sessions
      (jsToUpper (jsTrim code)) = some sess := by
    simp [cleanupSessions, hfound, hnl]
  have hgeq : presenceInGame (cleanupSessions now
      { st with hits := (rateLimit "verify" ip "" now st.hits).2 }) sess.username =
      presenceInGame st sess.username := by
    simp [presenceInGame, cleanupSessions]
  have hsess_del : (sessionVerify cfg ip code now st).1.sessions
      (jsToUpper (jsTrim code)) = none := by
    by_cases hg : presenceInGame (cleanupSessions now
        { st with hits := (rateLimit "verify" ip "" now st.hits).2 }) sess.username
    · simp [sessionVerify, hrl, hcode, hf2, hg, mset]
    · simp [sessionVerify, hrl, hcode, hf2, hg, mset]
  refine ⟨hsess_del, ?_, ?_, ?_, ?_⟩
  · by_cases hg : presenceInGame (cleanupSessions now
        { st with hits := (rateLimit "verify" ip "" now st.hits).2 }) sess.username
    all_goals
      simp only [sessionVerify, hrl, Bool.false_eq_true, if_false, hcode, ite_false, hf2,
        hg, not_true, not_false_eq_true]
    all_goals
      by_cases hc : (cleanupSessions now
          { st with hits := (rateLimit "verify" ip "" now st.hits).2 }).sessionsByUser
          sess.username = some (jsToUpper (jsTrim code))
    · simp [hc, mset]
    · simp [hc]
    · simp [hc, mset]
    · simp [hc]
  · intro hg
    rw [← hgeq] at hg
    simp [sessionVerify, hrl, hcode, hf2, hg]
  · intro hg
    rw [← hgeq] at hg
    simp [sessionVerify, hrl, hcode, hf2, hg]
  · have hclean2 : (cleanupSessions now2
        { (sessionVerify cfg ip code now st).1 with
            hits := (rateLimit "verify" ip2 "" now2
              (sessionVerify cfg ip code now st).1.hits).2 }).sessions
        (jsToUpper (jsTrim code)) = none := by
      simp [cleanupSessions, hsess_del]
    conv_lhs => rw [sessionVerify]
    simp [hrl2, hcode, hclean2]

/-- A configuration with a token secret and trivial codec collaborators. -/
def cfgWithSecret : Config :=
  ⟨"k", "s", 3, 10, ⟨fun _ _ => [], fun _ => "", fun _ => none, fun _ => "", fun _ => []⟩⟩

theorem redeem_deletes_and_second_fails_witness :
    (sessionVerify cfgWithSecret "1.1.1.1" " abc1234 " 50 stOnePairing).1.sessions
      "ABC1234" = none ∧
    (sessionVerify cfgWithSecret "1.1.1.1" " abc1234 " 50 stOnePairing).1.sessionsByUser
      "alice" ≠ some "ABC1234" ∧
    (sessionVerify cfgWithSecret "1.1.1.1" " abc1234 " 50 stOnePairing).2 =
      .success "alice" false (makeWebToken cfgWithSecret 50 "alice")
        (if (makeWebToken cfgWithSecret 50 "alice").isSome then some (50 + WEB_TOKEN_TTL_MS)
         else none) ∧
    (sessionVerify cfgWithSecret "2.2.2.2" " abc1234 " 60
      (sessionVerify cfgWithSecret "1.1.1.1" " abc1234 " 50 stOnePairing).1).2 =
      .invalidOrExpired := by
  obtain ⟨h1, h2, h3, _, h5⟩ := redeem_deletes_and_second_fails cfgWithSecret "1.1.1.1"
    " abc1234 " 50 stOnePairing ⟨"alice", false, 100⟩ (by decide) (by decide) (by decide)
    (by decide) "2.2.2.2" 60 (by decide)
  exact ⟨h1, h2, h3 (by decide), h5⟩

/-! Claim C6: field handling of accepted POST /radio/state writes. -/

/-- Claim C6 (amended).  On an accepted write, `trackIndex` and `trackName`
fall back to the previous snapshot when missing or non-finite (zero / empty
string only on an initial write); `positionAt` does not fall back: it is the
request's `positionSec` when finite and nonnegative and `0` otherwise
(missing, non-finite, or negative), so the stored value is always `≥ 0`;
`isPlaying` and `muted` are boolean-coerced from the request with no
fallback; `serverTs` and `updatedAt` are set to the current time. -/
theorem radioState_write_fields
    (cfg : Config) (ip username : String) (trackIndex : Option ℚ)
    (trackName : Option String) (positionSec : Option ℚ) (isPlaying muted : Bool)
    (h q b : Option String) (now : Ms) (st : ServerState)
    (hrl : (rateLimit "stateIp" ip "" now st.hits).1 = false)
    (huser : username ≠ "")
    (hauth : requireTokenForUser cfg st.tokenRevokedAt now h q b (jsToLower username) =
      .ok (jsToLower username))
    (hgame : presenceInGame st (jsToLower username) = true)
    (hgap : (match st.radioState (jsToLower username) with
      | some p => decide (p.updatedAt ≠ 0) && decide (now - p.updatedAt < STATE_MIN_GAP_MS)
      | none => false) = false) :
    (radioStatePost cfg ip username trackIndex trackName positionSec isPlaying muted
      h q b now st).2 = .okStored ∧
    (radioStatePost cfg ip username trackIndex trackName positionSec isPlaying muted
      h q b now st).1.radioState (jsToLower username) =
      some ⟨(match trackIndex with
             | some v => v
             | none => match st.radioState (jsToLower username) with
               | some p => p.trackIndex
               | none => 0),
            (match trackName with
             | some s => s
             | none => match st.radioState (jsToLower username) with
               | some p => p.trackName
               | none => ""),
            (match positionSec with
             | some v => if 0 ≤ v then v else 0
             | none => 0),
            isPlaying, muted, now, now⟩ ∧
    (0 : ℚ) ≤ (match positionSec with
             | some v => if 0 ≤ v then v else (0 : ℚ)
             | none => 0) ∧
    (positionSec = none →
      (match positionSec with
       | some v => if 0 ≤ v then v else (0 : ℚ)
       | none => 0) = 0) := by
  have hg2 : presenceInGame
      { st with hits := (rateLimit "stateIp" ip "" now st.hits).2 }
      (jsToLower username) = true := hgame
  have hgap2 : (match st.radioState (jsToLower username) with
      | some p => !decide (p.updatedAt = 0) && decide (now - p.updatedAt < STATE_MIN_GAP_MS)
      | none => false) = false := by
    simpa using hgap
  refine ⟨?_, ?_, ?_, ?_⟩
  · simp [radioStatePost, hrl, huser, hauth, hg2, hgap2]
  · simp [radioStatePost, hrl, huser, hauth, hg2, hgap2, mset]
  · match positionSec with
    | none => simp
    | some v =>
      by_cases hv : 0 ≤ v
      · simp [hv]
      · simp [hv]
  · intro hp
    rw [hp]

/-- A state holding an earlier snapshot for alice: `positionAt = 5`,
`isPlaying = true` (with `updatedAt = 0` so the min-gap check passes). -/
def stPrevSnap : ServerState :=
  { emptyState with
    presence := mset emptyState.presence "alice" (some ⟨true, false, 0⟩),
    radioState := mset emptyState.radioState "alice" (some ⟨3, "x", 5, true, false, 0, 0⟩) }

/-- Claim C6, counterexample to the original wording: a write whose
`positionSec`, `isPlaying` and `muted` are all missing stores
`positionAt = 0` and `isPlaying = false` even though the previous snapshot
had `positionAt = 5` and `isPlaying = true`; only `trackIndex` and
`trackName` fall back.  The claim demands a fallback for every field. -/
theorem radioState_write_fields_witness :
    (radioStatePost cfgNoSecret "ip" "alice" (some 7) none (some (-2)) true false
      none none none 1000 stPrevSnap).2 = .okStored ∧
    (radioStatePost cfgNoSecret "ip" "alice" (some 7) none (some (-2)) true false
      none none none 1000 stPrevSnap).1.radioState "alice" =
      some ⟨7, "x", 0, true, false, 1000, 1000⟩ := by
  obtain ⟨h1, h2, _, _⟩ := radioState_write_fields cfgNoSecret "ip" "alice" (some 7) none
    (some (-2)) true false none none none 1000 stPrevSnap (by decide) (by decide)
    (by decide) (by decide) (by decide)
  exact ⟨h1, h2⟩

theorem radioState_no_fallback_counterexample :
    stPrevSnap.radioState "alice" = some ⟨3, "x", 5, true, false, 0, 0⟩ ∧
    (radioStatePost cfgNoSecret "ip" "alice" none none none false false
      none none none 1000 stPrevSnap).1.radioState "alice" =
      some ⟨3, "x", 0, false, false, 1000, 1000⟩ ∧
    (0 : ℚ) ≠ 5 ∧ false ≠ true := by
  refine ⟨by decide, by decide, by decide, by decide⟩

/-! Claim C7: mute/unmute coalescing. -/

/-- Claim C7 (amended).  On either mute endpoint, a request whose `muted`
value equals the `muted` of the record currently **last** in the user's
queue, arriving within `MUTE_DEDUP_WINDOW` (1500 ms) of that record, is
suppressed: it answers `ok:true, ignored:true`, pushes nothing, and leaves
the queue unchanged.  (The dedup looks only at the last record, so a pair of
identical mute requests within the window is *not* always reduced to its
first member — see the counterexample.) -/
theorem mute_dedup_last_record
    (cfg : Config) (ip username : String) (m : Bool)
    (h q b : Option String) (serverKey : Option String) (now : Ms) (st : ServerState)
    (l : RadioEv)
    (hlast : ((st.radioQueue (jsToLower username)).getD []).getLast? = some l)
    (hm : l.muted = some m)
    (hwin : now - l.ts < 1500) :
    ((rateLimit "muteIp" ip "" now st.hits).1 = false → username ≠ "" →
      requireTokenForUser cfg st.tokenRevokedAt now h q b (jsToLower username) =
        .ok (jsToLower username) →
      presenceInGame st (jsToLower username) = true →
      (radioMute cfg ip username (some m) h q b now st).resp = .ignored ∧
      (radioMute cfg ip username (some m) h q b now st).state.radioQueue
        (jsToLower username) = some ((st.radioQueue (jsToLower username)).getD []) ∧
      (radioMute cfg ip username (some m) h q b now st).writes = []) ∧
    ((rateLimit "muteIp" ip "" now st.hits).1 = false →
      cfg.robloxServerKey ≠ "" → serverKey = some cfg.robloxServerKey → username ≠ "" →
      presenceInGame st (jsToLower username) = true →
      (radioMuteServer cfg ip serverKey username (some m) now st).resp = .ignored ∧
      (radioMuteServer cfg ip serverKey username (some m) now st).state.radioQueue
        (jsToLower username) = some ((st.radioQueue (jsToLower username)).getD []) ∧
      (radioMuteServer cfg ip serverKey username (some m) now st).writes = []) := by
  have hsup : (match ((st.radioQueue (jsToLower username)).getD []).getLast? with
      | some l => match l.muted with
        | some mm => decide (mm = m) && decide (now - l.ts < 1500)
        | none => false
      | none => false) = true := by
    rw [hlast]
    simp [hm, hwin]
  have hg2 : presenceInGame
      { st with hits := (rateLimit "muteIp" ip "" now st.hits).2 }
      (jsToLower username) = presenceInGame st (jsToLower username) := rfl
  constructor
  · intro hrl huser hauth hgame
    refine ⟨?_, ?_, ?_⟩ <;>
      simp [radioMute, hrl, huser, hauth, hg2, hgame, muteCore, hsup, mset]
  · intro hrl hks hkey huser hgame
    refine ⟨?_, ?_, ?_⟩ <;>
      simp [radioMuteServer, hrl, hks, hkey, huser, hg2, hgame, muteCore, hsup, mset]

/-- A state where alice is in game and nothing else is populated. -/
def stAliceInGame : ServerState :=
  { emptyState with presence := mset emptyState.presence "alice" (some ⟨true, false, 0⟩) }

/-- A state where alice is in game and her queue already holds one mute
record from time 0. -/
def stMuteQueued : ServerState :=
  { stAliceInGame with
    radioQueue := mset stAliceInGame.radioQueue "alice"
      (some [⟨"RADIO_MUTE", some "web", some true, none, 0⟩]) }

theorem mute_dedup_last_record_witness :
    (radioMute cfgNoSecret "ip" "alice" (some true) none none none 900
      stMuteQueued).resp = .ignored ∧
    (radioMute cfgNoSecret "ip" "alice" (some true) none none none 900
      stMuteQueued).state.radioQueue "alice" =
      some [⟨"RADIO_MUTE", some "web", some true, none, 0⟩] ∧
    (radioMute cfgNoSecret "ip" "alice" (some true) none none none 900
      stMuteQueued).writes = [] := by
  have hres := (mute_dedup_last_record cfgNoSecret "ip" "alice" true none none none none 900
    stMuteQueued ⟨"RADIO_MUTE", some "web", some true, none, 0⟩
    (by decide) (by decide) (by decide)).1 (by decide) (by decide) (by decide) (by decide)
  exact hres

/-- Claim C7, counterexample to the original wording: three identical mute
requests for alice at t = 0, 1000 and 2000 ms.  The second (t = 1000) is
suppressed, so when the third arrives (t = 2000) the last stored record is
the one from t = 0, outside the window; the third is therefore stored even
though it forms an identical-mute pair with the t = 1000 request well inside
`MUTE_DEDUP_WINDOW`.  For that pair, the first member was never stored and
the second was — the claim says only the first of such a pair is stored. -/
theorem mute_pair_counterexample :
    (radioMute cfgNoSecret "ip" "alice" (some true) none none none 1000
      (radioMute cfgNoSecret "ip" "alice" (some true) none none none 0
        stAliceInGame).state).resp = .ignored ∧
    (radioMute cfgNoSecret "ip" "alice" (some true) none none none 2000
      (radioMute cfgNoSecret "ip" "alice" (some true) none none none 1000
        (radioMute cfgNoSecret "ip" "alice" (some true) none none none 0
          stAliceInGame).state).state).resp = .okPushed false ∧
    (radioMute cfgNoSecret "ip" "alice" (some true) none none none 2000
      (radioMute cfgNoSecret "ip" "alice" (some true) none none none 1000
        (radioMute cfgNoSecret "ip" "alice" (some true) none none none 0
          stAliceInGame).state).state).state.radioQueue "alice" =
      some [⟨"RADIO_MUTE", some "web", some true, none, 0⟩,
            ⟨"RADIO_MUTE", some "web", some true, none, 2000⟩] ∧
    ((2000 : Ms) - 1000 < 1500) := by
  refine ⟨by decide, by decide, by decide, by decide⟩

/-! Claim C9: the browser drain of the radio queue. -/

theorem filter_web_of_nonweb (l : List RadioEv) :
    (l.filter (fun e => !(isWebEv e))).filter isWebEv = [] := by
  induction l with
  | nil => rfl
  | cons a t ih =>
    by_cases ha : isWebEv a
    · simp [List.filter, ha, ih]
    · simp [List.filter, ha, ih]

/-- Claim C9 (amended).  An authorized sync returns exactly the
`audience = web` events of the user's queue, in append order, removes
exactly those and leaves everything else (the user's non-web events and
every other user's queue) in place; an immediately following authorized sync
therefore returns the empty list — a subset of the first response, and a
strict subset exactly when the first response was nonempty. -/
theorem radioSync_drains_web
    (cfg : Config) (ip raw : String) (h q b : Option String) (now : Ms) (st : ServerState)
    (hrl : (rateLimit "syncIp" ip "" now st.hits).1 = false)
    (hkey : jsToLower raw ≠ "")
    (hauth : requireTokenForUser cfg st.tokenRevokedAt now h q b (jsToLower raw) =
      .ok (jsToLower raw))
    (ip2 : String) (now2 : Ms) (h2 q2 b2 : Option String)
    (hrl2 : (rateLimit "syncIp" ip2 "" now2
      (radioSync cfg ip raw h q b now st).1.hits).1 = false)
    (hauth2 : requireTokenForUser cfg (radioSync cfg ip raw h q b now st).1.tokenRevokedAt
      now2 h2 q2 b2 (jsToLower raw) = .ok (jsToLower raw)) :
    (radioSync cfg ip raw h q b now st).2 =
      .success (((st.radioQueue (jsToLower raw)).getD []).filter isWebEv) ∧
    (radioSync cfg ip raw h q b now st).1.radioQueue (jsToLower raw) =
      some (((st.radioQueue (jsToLower raw)).getD []).filter (fun e => !(isWebEv e))) ∧
    (∀ u, u ≠ jsToLower raw →
      (radioSync cfg ip raw h q b now st).1.radioQueue u = st.radioQueue u) ∧
    (radioSync cfg ip2 raw h2 q2 b2 now2 (radioSync cfg ip raw h q b now st).1).2 =
      .success [] := by
  have hstate : (radioSync cfg ip raw h q b now st).1 = { st with
      hits := (rateLimit "syncIp" ip "" now st.hits).2,
      radioQueue := mset st.radioQueue (jsToLower raw)
        (some (((st.radioQueue (jsToLower raw)).getD []).filter (fun e => !(isWebEv e)))) } := by
    simp [radioSync, hrl, hkey, hauth]
  refine ⟨?_, ?_, ?_, ?_⟩
  · simp [radioSync, hrl, hkey, hauth]
  · rw [hstate]
    simp [mset]
  · intro u hu
    rw [hstate]
    simp [mset, hu]
  · rw [hstate] at hrl2 hauth2 ⊢
    have hrl2' : (rateLimit "syncIp" ip2 "" now2
        (rateLimit "syncIp" ip "" now st.hits).2).1 = false := by simpa using hrl2
    have hauth2' : requireTokenForUser cfg st.tokenRevokedAt now2 h2 q2 b2 (jsToLower raw) =
        .ok (jsToLower raw) := by simpa using hauth2
    simp [radioSync, hrl2', hkey, hauth2', mset, filter_web_of_nonweb]

/-- A state where alice is in game and her queue holds one web event and one
roblox event. -/
def stMixedQueue : ServerState :=
  { stAliceInGame with
    radioQueue := mset stAliceInGame.radioQueue "alice"
      (some [⟨"RADIO_MUTE", some "web", some true, none, 0⟩,
             ⟨"RADIO_JOIN", some "roblox", none, none, 1⟩]) }

theorem radioSync_drains_web_witness :
    (radioSync cfgNoSecret "ip" "alice" none none none 5 stMixedQueue).2 =
      .success [⟨"RADIO_MUTE", some "web", some true, none, 0⟩] ∧
    (radioSync cfgNoSecret "ip" "alice" none none none 5 stMixedQueue).1.radioQueue
      "alice" = some [⟨"RADIO_JOIN", some "roblox", none, none, 1⟩] ∧
    (radioSync cfgNoSecret "ip2" "alice" none none none 6
      (radioSync cfgNoSecret "ip" "alice" none none none 5 stMixedQueue).1).2 =
      .success [] := by
  obtain ⟨h1, h2, _, h4⟩ := radioSync_drains_web cfgNoSecret "ip" "alice" none none none 5
    stMixedQueue (by decide) (by decide) (by decide) "ip2" 6 none none none
    (by decide) (by decide)
  exact ⟨h1, h2, h4⟩

/-- Claim C9, counterexample to the original wording: for a user whose queue
holds no web events, both syncs return the empty list, and the empty list is
not a *strict* subset of the empty list; the claim asserts the second
response is always a strict subset of the first. -/
theorem radioSync_strict_subset_counterexample :
    (radioSync cfgNoSecret "ip" "alice" none none none 0 stAliceInGame).2 = .success [] ∧
    (radioSync cfgNoSecret "ip2" "alice" none none none 1
      (radioSync cfgNoSecret "ip" "alice" none none none 0 stAliceInGame).1).2 =
      .success [] ∧
    ¬ (∃ l1 l2 : List RadioEv,
        (radioSync cfgNoSecret "ip" "alice" none none none 0 stAliceInGame).2 =
          .success l1 ∧
        (radioSync cfgNoSecret "ip2" "alice" none none none 1
          (radioSync cfgNoSecret "ip" "alice" none none none 0 stAliceInGame).1).2 =
          .success l2 ∧
        l2 ⊆ l1 ∧ l2 ≠ l1) := by
  have hfix1 : (radioSync cfgNoSecret "ip" "alice" none none none 0 stAliceInGame).2 =
      .success [] := by decide
  have hfix2 : (radioSync cfgNoSecret "ip2" "alice" none none none 1
      (radioSync cfgNoSecret "ip" "alice" none none none 0 stAliceInGame).1).2 =
      .success [] := by decide
  refine ⟨hfix1, hfix2, ?_⟩
  rintro ⟨l1, l2, h1, h2, hsub, hne⟩
  rw [hfix1] at h1
  rw [hfix2] at h2
  cases h1
  cases h2
  exact hne rfl

/-! Claim C8: push-hub admission for GET /events/:username. -/

/-- Claim C8 (amended).  The handler evaluates, in order: per-IP open-rate
limit, per-user open-rate limit, token check — then writes the `hello`
frame — and only then runs `sseAddClient`, which checks the per-IP
subscriber count first and the per-user set size second.  Consequently the
`hello` frame is written exactly for connections that get past the token
check: connections rejected by the rate limits or the token check never see
`hello`, but connections rejected by either cap check have already been
written `hello`. -/
theorem eventsOpen_admission
    (cfg : Config) (ip raw : String) (h q : Option String) (cid : Nat) (now : Ms)
    (st : ServerState) :
    ((eventsOpen cfg ip raw h q cid now st).helloWritten = true ↔
      ((eventsOpen cfg ip raw h q cid now st).resp = .capRejectedIp ∨
       (eventsOpen cfg ip raw h q cid now st).resp = .capRejectedUser ∨
       (eventsOpen cfg ip raw h q cid now st).resp = .admitted)) ∧
    (jsToLower raw ≠ "" →
     (rateLimit "sseOpenIp" ip "open" now st.hits).1 = false →
     (rateLimit "sseOpenUser" (jsToLower raw) "open" now
        (rateLimit "sseOpenIp" ip "open" now st.hits).2).1 = false →
     requireTokenForUser cfg st.tokenRevokedAt now h q none (jsToLower raw) =
       .ok (jsToLower raw) →
     ((cfg.maxSsePerIp ≤ (st.sseIpCount ip).getD 0 →
        (eventsOpen cfg ip raw h q cid now st).resp = .capRejectedIp) ∧
      ((st.sseIpCount ip).getD 0 < cfg.maxSsePerIp →
        cfg.maxSsePerUser ≤ (st.sseClients (jsToLower raw)).length →
        (eventsOpen cfg ip raw h q cid now st).resp = .capRejectedUser) ∧
      ((st.sseIpCount ip).getD 0 < cfg.maxSsePerIp →
        (st.sseClients (jsToLower raw)).length < cfg.maxSsePerUser →
        (eventsOpen cfg ip raw h q cid now st).resp = .admitted ∧
        (eventsOpen cfg ip raw h q cid now st).state.sseClients (jsToLower raw) =
          cid :: st.sseClients (jsToLower raw) ∧
        (eventsOpen cfg ip raw h q cid now st).state.sseIpCount ip =
          some ((st.sseIpCount ip).getD 0 + 1)))) := by
  constructor
  · simp only [eventsOpen]
    repeat' split
    all_goals simp_all
  · intro h0 hrl1 hrl2 hauth
    refine ⟨?_, ?_, ?_⟩
    · intro hip
      simp [eventsOpen, h0, hrl1, hrl2, hauth, sseAddClient, jsToLower_idem, hip]
    · intro hip huser
      simp [eventsOpen, h0, hrl1, hrl2, hauth, sseAddClient, jsToLower_idem,
        not_le.mpr hip, huser]
    · intro hip huser
      refine ⟨?_, ?_, ?_⟩ <;>
        simp [eventsOpen, h0, hrl1, hrl2, hauth, sseAddClient, jsToLower_idem,
          not_le.mpr hip, not_le.mpr huser, mset]

theorem eventsOpen_admission_witness :
    (eventsOpen cfgNoSecret "ip" "alice" none none 99 0 emptyState).helloWritten = true ∧
    (eventsOpen cfgNoSecret "ip" "alice" none none 99 0 emptyState).resp = .admitted ∧
    (eventsOpen cfgNoSecret "ip" "alice" none none 99 0 emptyState).state.sseClients
      "alice" = [99] ∧
    (eventsOpen cfgNoSecret "ip" "alice" none none 99 0 emptyState).state.sseIpCount
      "ip" = some 1 := by
  obtain ⟨hhello, hord⟩ := eventsOpen_admission cfgNoSecret "ip" "alice" none none 99 0
    emptyState
  obtain ⟨_, _, hadm⟩ := hord (by decide) (by decide) (by decide) (by decide)
  obtain ⟨r1, r2, r3⟩ := hadm (by decide) (by decide)
  exact ⟨hhello.mpr (Or.inr (Or.inr r1)), r1, r2, r3⟩

/-- A configuration whose SSE caps are exhausted from the start
(`MAX_SSE_PER_USER = 0`, `MAX_SSE_PER_IP = 0` — both env-configurable). -/
def cfgZeroCaps : Config :=
  ⟨"k", "", 0, 0, ⟨fun _ _ => [], fun _ => "", fun _ => none, fun _ => "", fun _ => []⟩⟩

/-- Claim C8, counterexample: a connection that passes the rate limits and
the token check but is rejected by the subscriber caps has already been
written the `hello` frame — the claim says a rejected connection is never
written `hello`.  Moreover both caps are violated here and the rejection is
the per-IP one, showing the per-IP cap is evaluated before the per-user cap,
not after it as the claim orders them. -/
theorem events_hello_before_caps_counterexample :
    (eventsOpen cfgZeroCaps "ip" "alice" none none 7 0 emptyState).resp =
      .capRejectedIp ∧
    (eventsOpen cfgZeroCaps "ip" "alice" none none 7 0 emptyState).resp ≠
      .capRejectedUser ∧
    (eventsOpen cfgZeroCaps "ip" "alice" none none 7 0 emptyState).helloWritten = true := by
  refine ⟨by decide, by decide, by decide⟩

/-! Claim C1: the full effect of an authorized POST /session/create. -/

theorem sseSendToUser_writes (st : ServerState) (u n : String) (ev : RadioEv) :
    (sseSendToUser st u n ev).2 =
      (st.sseClients (jsToLower u)).map (fun cid => (cid, n, ev)) := by
  unfold sseSendToUser
  by_cases h : st.sseClients (jsToLower u) = []
  · simp [h]
  · simp [h]

theorem cleanupSessions_sseClients (now : Ms) (st : ServerState) :
    (cleanupSessions now st).sseClients = st.sseClients := rfl

theorem pickFreshCode_some (s : String → Option SessionRec) (gen : Nat → List Nat)
    (code : String) (h : pickFreshCode s gen = some code) :
    ∃ i, i < 12 ∧ code = genCode (gen i) ∧ s code = none := by
  unfold pickFreshCode at h
  obtain ⟨i, hfind, hcode⟩ := Option.map_eq_some'.mp h
  refine ⟨i, ?_, hcode.symm, ?_⟩
  · exact List.mem_range.mp (List.mem_of_find?_eq_some hfind)
  · have := List.find?_some hfind
    rw [hcode] at this
    simpa [Option.isNone_iff_eq_none] using this

/-- Claim C1.  An authorized create for an in-game user performs, before
storing the new code (and also when code generation fails): pre-emption of
the previously indexed code, `revokedAt[uname] := now`, deletion of the
radio-state snapshot, and a `KICK{reason:"new_code"}` frame to every push
subscriber of that user.  It then stores the first of up to 12 generated
codes that is not already a key of `sessions`, with
`exp = now + SESSION_TTL_MS`, answering with that code and expiry; if all 12
attempts collide it answers `code_generation_failed`.  Every generated code
has length 7 over the 32-character alphabet. -/
theorem sessionCreate_spec
    (cfg : Config) (serverKey : Option String) (username : String)
    (havePass : Bool) (gen : Nat → List Nat) (now : Ms) (st : ServerState)
    (hkey : cfg.robloxServerKey ≠ "") (hhdr : serverKey = some cfg.robloxServerKey)
    (huser : username ≠ "")
    (hgame : presenceInGame st (jsToLower username) = true)
    (hlen : ∀ i, (gen i).length = 7) :
    (sessionCreate cfg serverKey username havePass gen now st).state.tokenRevokedAt
      (jsToLower username) = some now ∧
    (sessionCreate cfg serverKey username havePass gen now st).state.radioState
      (jsToLower username) = none ∧
    (sessionCreate cfg serverKey username havePass gen now st).writes =
      (st.sseClients (jsToLower username)).map (fun cid => (cid, "radio", kickEvent now)) ∧
    (∀ prev, (cleanupSessions now st).sessionsByUser (jsToLower username) = some prev →
      (∀ c e, (sessionCreate cfg serverKey username havePass gen now st).resp =
          .success c e → prev ≠ c →
        (sessionCreate cfg serverKey username havePass gen now st).state.sessions prev =
          none) ∧
      ((sessionCreate cfg serverKey username havePass gen now st).resp = .genFailed →
        (sessionCreate cfg serverKey username havePass gen now st).state.sessions prev =
          none)) ∧
    (pickFreshCode (sessionsAfterPreempt (cleanupSessions now st) (jsToLower username))
        gen = none ↔
      ∀ i < 12, (sessionsAfterPreempt (cleanupSessions now st) (jsToLower username)
        (genCode (gen i))).isSome = true) ∧
    (pickFreshCode (sessionsAfterPreempt (cleanupSessions now st) (jsToLower username))
        gen = none →
      (sessionCreate cfg serverKey username havePass gen now st).resp = .genFailed) ∧
    (∀ code, pickFreshCode (sessionsAfterPreempt (cleanupSessions now st)
        (jsToLower username)) gen = some code →
      (sessionCreate cfg serverKey username havePass gen now st).resp =
        .success code (now + SESSION_TTL_MS) ∧
      (sessionCreate cfg serverKey username havePass gen now st).state.sessions code =
        some ⟨jsToLower username, havePass, now + SESSION_TTL_MS⟩ ∧
      (sessionCreate cfg serverKey username havePass gen now st).state.sessionsByUser
        (jsToLower username) = some code ∧
      sessionsAfterPreempt (cleanupSessions now st) (jsToLower username) code = none ∧
      code.length = 7 ∧ (∀ ch ∈ code.data, ch ∈ codeAlphabet)) := by
  have hg2 : presenceInGame (cleanupSessions now st) (jsToLower username) = true := hgame
  rcases hpick : pickFreshCode (sessionsAfterPreempt (cleanupSessions now st)
      (jsToLower username)) gen with _ | code
  · refine ⟨?_, ?_, ?_, ?_, ?_, ?_, ?_⟩
    · simp [sessionCreate, hkey, hhdr, huser, hg2, hpick, mset]
    · simp [sessionCreate, hkey, hhdr, huser, hg2, hpick, mset]
    · simp [sessionCreate, hkey, hhdr, huser, hg2, hpick, sseSendToUser_writes,
        jsToLower_idem, cleanupSessions_sseClients]
    · intro prev hprev
      constructor
      · intro c e hresp
        exfalso
        simp [sessionCreate, hkey, hhdr, huser, hg2, hpick] at hresp
      · intro _
        simp [sessionCreate, hkey, hhdr, huser, hg2, hpick, sessionsAfterPreempt, hprev]
    · constructor
      · intro _ i hi
        have h2 := hpick
        unfold pickFreshCode at h2
        simp only [Option.map_eq_none', List.find?_eq_none, List.mem_range] at h2
        have := h2 i hi
        simpa [Option.isNone_iff_eq_none, Option.isSome_iff_ne_none] using this
      · intro _
        rfl
    · intro _
      simp [sessionCreate, hkey, hhdr, huser, hg2, hpick]
    · intro code hcode
      exact Option.noConfusion hcode
  · obtain ⟨i, hi, hcodeEq, hfresh⟩ := pickFreshCode_some _ _ _ hpick
    refine ⟨?_, ?_, ?_, ?_, ?_, ?_, ?_⟩
    · simp [sessionCreate, hkey, hhdr, huser, hg2, hpick, mset]
    · simp [sessionCreate, hkey, hhdr, huser, hg2, hpick, mset]
    · simp [sessionCreate, hkey, hhdr, huser, hg2, hpick, sseSendToUser_writes,
        jsToLower_idem, cleanupSessions_sseClients]
    · intro prev hprev
      constructor
      · intro c e hresp hne
        have hc : c = code := by
          simp [sessionCreate, hkey, hhdr, huser, hg2, hpick] at hresp
          exact hresp.1.symm
        subst hc
        simp [sessionCreate, hkey, hhdr, huser, hg2, hpick, mset, hne,
          sessionsAfterPreempt, hprev]
      · intro hresp
        exfalso
        simp [sessionCreate, hkey, hhdr, huser, hg2, hpick] at hresp
    · constructor
      · intro hnone
        exact absurd hnone (by simp)
      · intro hall
        exfalso
        have := hall i hi
        rw [← hcodeEq, hfresh] at this
        simp at this
    · intro hnone
      exact absurd hnone (by simp)
    · intro c hc
      injection hc with hc2
      subst hc2
      refine ⟨?_, ?_, ?_, hfresh, ?_, ?_⟩
      · simp [sessionCreate, hkey, hhdr, huser, hg2, hpick]
      · simp [sessionCreate, hkey, hhdr, huser, hg2, hpick, mset]
      · simp [sessionCreate, hkey, hhdr, huser, hg2, hpick, mset]
      · rw [hcodeEq, genCode_length, hlen i]
      · rw [hcodeEq]
        exact genCode_alphabet (gen i)

theorem sessionCreate_spec_witness :
    (sessionCreate cfgNoSecret (some "k") "Alice" true (fun _ => [0, 1, 2, 3, 4, 5, 6]) 10
      stAliceInGame).state.tokenRevokedAt "alice" = some 10 ∧
    (sessionCreate cfgNoSecret (some "k") "Alice" true (fun _ => [0, 1, 2, 3, 4, 5, 6]) 10
      stAliceInGame).state.radioState "alice" = none ∧
    (sessionCreate cfgNoSecret (some "k") "Alice" true (fun _ => [0, 1, 2, 3, 4, 5, 6]) 10
      stAliceInGame).writes = [] ∧
    (sessionCreate cfgNoSecret (some "k") "Alice" true (fun _ => [0, 1, 2, 3, 4, 5, 6]) 10
      stAliceInGame).resp = .success "ABCDEFG" (10 + SESSION_TTL_MS) ∧
    (sessionCreate cfgNoSecret (some "k") "Alice" true (fun _ => [0, 1, 2, 3, 4, 5, 6]) 10
      stAliceInGame).state.sessions "ABCDEFG" =
      some ⟨"alice", true, 10 + SESSION_TTL_MS⟩ ∧
    (sessionCreate cfgNoSecret (some "k") "Alice" true (fun _ => [0, 1, 2, 3, 4, 5, 6]) 10
      stAliceInGame).state.sessionsByUser "alice" = some "ABCDEFG" ∧
    "ABCDEFG".length = 7 ∧ (∀ ch ∈ "ABCDEFG".data, ch ∈ codeAlphabet) := by
  obtain ⟨h1, h2, h3, _, _, _, h7⟩ := sessionCreate_spec cfgNoSecret (some "k") "Alice"
    true (fun _ => [0, 1, 2, 3, 4, 5, 6]) 10 stAliceInGame (by decide) rfl (by decide)
    (by decide) (fun i => rfl)
  obtain ⟨r1, r2, r3, _, r5, r6⟩ := h7 "ABCDEFG" (by decide)
  exact ⟨h1, h2, h3, r1, r2, r3, r5, r6⟩

/-! Claim C5: the pairing-index invariant. -/

/-- The pairing invariant on the two maps: (a) every index entry points to a
session of that user, (b) every session is indexed under its user, (c) every
stored session has a truthy username and an expiry after `pt` (the time of
the last pairing-map operation). -/
def PairInvM (S : String → Option SessionRec) (B : String → Option String)
    (pt : Ms) : Prop :=
  (∀ u c, B u = some c → ∃ s, S c = some s ∧ s.username = u) ∧
  (∀ c s, S c = some s → B s.username = some c) ∧
  (∀ c s, S c = some s → s.username ≠ "" ∧ pt < s.exp)

theorem cleanup_pairinvM {st : ServerState} {pt : Ms} (now : Ms)
    (h : PairInvM st.sessions st.sessionsByUser pt) :
    PairInvM (cleanupSessions now st).sessions (cleanupSessions now st).sessionsByUser
      now := by
  obtain ⟨ha, hb, hc⟩ := h
  refine ⟨?_, ?_, ?_⟩
  · intro u c h'
    simp only [cleanupSessions] at h' ⊢
    cases hBu : st.sessionsByUser u with
    | none => simp only [hBu] at h'; cases h'
    | some c0 =>
      simp only [hBu] at h'
      obtain ⟨s, hS, hu⟩ := ha u c0 hBu
      simp only [hS] at h'
      have hne : s.username ≠ "" := (hc c0 s hS).1
      by_cases hexp : s.exp ≤ now
      · rw [if_pos ⟨hexp, hne, hu⟩] at h'
        cases h'
      · rw [if_neg (by intro hcon; exact hexp hcon.1)] at h'
        injection h' with h''
        subst h''
        refine ⟨s, ?_, hu⟩
        simp only [hS]
        rw [if_neg hexp]
  · intro c s h'
    simp only [cleanupSessions] at h' ⊢
    cases hSc : st.sessions c with
    | none => simp only [hSc] at h'; cases h'
    | some s0 =>
      simp only [hSc] at h'
      by_cases hexp : s0.exp ≤ now
      · rw [if_pos hexp] at h'; cases h'
      · rw [if_neg hexp] at h'
        injection h' with h''
        have hSc' : st.sessions c = some s := by rw [hSc, h'']
        have hexp' : ¬ s.exp ≤ now := by rw [← h'']; exact hexp
        simp only [hb c s hSc', hSc']
        rw [if_neg (by intro hcon; exact hexp' hcon.1)]
  · intro c s h'
    simp only [cleanupSessions] at h'
    cases hSc : st.sessions c with
    | none => simp only [hSc] at h'; cases h'
    | some s0 =>
      simp only [hSc] at h'
      by_cases hexp : s0.exp ≤ now
      · rw [if_pos hexp] at h'; cases h'
      · rw [if_neg hexp] at h'
        injection h' with h''
        have hSc' : st.sessions c = some s := by rw [hSc, h'']
        have hexp' : ¬ s.exp ≤ now := by rw [← h'']; exact hexp
        exact ⟨(hc c s hSc').1, lt_of_not_le hexp'⟩

theorem preempt_pairinvM {st : ServerState} {now : Ms} (uname : String)
    (h : PairInvM st.sessions st.sessionsByUser now) :
    PairInvM (sessionsAfterPreempt st uname) (mset st.sessionsByUser uname none) now ∧
    (∀ c s, sessionsAfterPreempt st uname c = some s → s.username ≠ uname) := by
  obtain ⟨ha, hb, hc⟩ := h
  have hSrc : ∀ c s, sessionsAfterPreempt st uname c = some s → st.sessions c = some s := by
    intro c s h'
    unfold sessionsAfterPreempt at h'
    cases hBun : st.sessionsByUser uname with
    | none => simpa only [hBun] using h'
    | some p =>
      simp only [hBun] at h'
      by_cases hcp : c = p
      · rw [if_pos hcp] at h'; cases h'
      · rw [if_neg hcp] at h'; exact h'
  have hnoU : ∀ c s, sessionsAfterPreempt st uname c = some s → s.username ≠ uname := by
    intro c s h' hu
    have hS := hSrc c s h'
    have hBs := hb c s hS
    rw [hu] at hBs
    unfold sessionsAfterPreempt at h'
    simp only [hBs] at h'
    simp at h'
  refine ⟨⟨?_, ?_, ?_⟩, hnoU⟩
  · intro u c h'
    have hu : ¬ u = uname := by
      intro hco
      rw [hco] at h'
      rw [mset_same] at h'
      cases h'
    rw [mset_other _ _ _ _ hu] at h'
    obtain ⟨s, hS, hus⟩ := ha u c h'
    refine ⟨s, ?_, hus⟩
    unfold sessionsAfterPreempt
    cases hBun : st.sessionsByUser uname with
    | none => simp only [hBun]; exact hS
    | some p =>
      simp only [hBun]
      have hcp : ¬ c = p := by
        intro hco
        subst hco
        obtain ⟨s', hS', hus'⟩ := ha uname c hBun
        rw [hS] at hS'
        injection hS' with h''
        rw [← h''] at hus'
        rw [hus] at hus'
        exact hu hus'
      rw [if_neg hcp]
      exact hS
  · intro c s h'
    have hune := hnoU c s h'
    rw [mset_other _ _ _ _ hune]
    exact hb c s (hSrc c s h')
  · intro c s h'
    exact hc c s (hSrc c s h')

theorem insert_pairinvM {S : String → Option SessionRec} {B : String → Option String}
    {now : Ms} (uname code : String) (hp : Bool)
    (h : PairInvM S B now)
    (hnoU : ∀ c s, S c = some s → s.username ≠ uname)
    (hune : uname ≠ "") (hfresh : S code = none) :
    PairInvM (mset S code (some ⟨uname, hp, now + SESSION_TTL_MS⟩))
      (mset B uname (some code)) now := by
  obtain ⟨ha, hb, hc⟩ := h
  have httl : now < now + SESSION_TTL_MS := by
    have : SESSION_TTL_MS = 120000 := by decide
    linarith
  refine ⟨?_, ?_, ?_⟩
  · intro u c h'
    by_cases hu : u = uname
    · subst hu
      rw [mset_same] at h'
      injection h' with h''
      subst h''
      exact ⟨⟨u, hp, now + SESSION_TTL_MS⟩, by rw [mset_same], rfl⟩
    · rw [mset_other _ _ _ _ hu] at h'
      obtain ⟨s, hS, hus⟩ := ha u c h'
      have hcc : ¬ c = code := by
        intro hco
        subst hco
        rw [hfresh] at hS
        cases hS
      exact ⟨s, by rw [mset_other _ _ _ _ hcc]; exact hS, hus⟩
  · intro c s h'
    by_cases hcc : c = code
    · subst hcc
      rw [mset_same] at h'
      injection h' with h''
      subst h''
      rw [mset_same]
    · rw [mset_other _ _ _ _ hcc] at h'
      have hus := hnoU c s h'
      rw [mset_other _ _ _ _ hus]
      exact hb c s h'
  · intro c s h'
    by_cases hcc : c = code
    · subst hcc
      rw [mset_same] at h'
      injection h' with h''
      subst h''
      exact ⟨hune, httl⟩
    · rw [mset_other _ _ _ _ hcc] at h'
      exact hc c s h'

theorem delete_pairinvM {S : String → Option SessionRec} {B : String → Option String}
    {now : Ms} (key : String) (sess : SessionRec)
    (h : PairInvM S B now) (hS : S key = some sess) :
    PairInvM (mset S key none)
      (if B sess.username = some key then mset B sess.username none else B) now := by
  obtain ⟨ha, hb, hc⟩ := h
  refine ⟨?_, ?_, ?_⟩
  · intro u c h'
    by_cases hB0 : B sess.username = some key
    · rw [if_pos hB0] at h'
      have hu : ¬ u = sess.username := by
        intro hco
        rw [hco, mset_same] at h'
        cases h'
      rw [mset_other _ _ _ _ hu] at h'
      obtain ⟨s, hS', hus⟩ := ha u c h'
      have hcc : ¬ c = key := by
        intro hco
        subst hco
        rw [hS] at hS'
        injection hS' with h''
        rw [← h''] at hus
        exact hu hus.symm
      exact ⟨s, by rw [mset_other _ _ _ _ hcc]; exact hS', hus⟩
    · rw [if_neg hB0] at h'
      obtain ⟨s, hS', hus⟩ := ha u c h'
      have hcc : ¬ c = key := by
        intro hco
        subst hco
        rw [hS] at hS'
        injection hS' with h''
        rw [← h''] at hus
        rw [hus] at hB0
        exact hB0 h'
      exact ⟨s, by rw [mset_other _ _ _ _ hcc]; exact hS', hus⟩
  · intro c s h'
    have hcc : ¬ c = key := by
      intro hco
      subst hco
      rw [mset_same] at h'
      cases h'
    rw [mset_other _ _ _ _ hcc] at h'
    have hBs := hb c s h'
    by_cases hB0 : B sess.username = some key
    · rw [if_pos hB0]
      have hus : ¬ s.username = sess.username := by
        intro hco
        rw [hco, hB0] at hBs
        injection hBs with h''
        exact hcc h''.symm
      rw [mset_other _ _ _ _ hus]
      exact hBs
    · rw [if_neg hB0]
      exact hBs
  · intro c s h'
    have hcc : ¬ c = key := by
      intro hco
      subst hco
      rw [mset_same] at h'
      cases h'
    rw [mset_other _ _ _ _ hcc] at h'
    exact hc c s h'

theorem presencePost_pairing (ip username : String) (inGame : Option Bool)
    (havePass : Bool) (now : Ms) (st : ServerState) :
    (presencePost ip username inGame havePass now st).1.sessions = st.sessions ∧
    (presencePost ip username inGame havePass now st).1.sessionsByUser =
      st.sessionsByUser := by
  by_cases hrl : (rateLimit "presenceIp" ip "" now st.hits).1
  · simp [presencePost, hrl]
  · cases inGame with
    | none => simp [presencePost, hrl]
    | some g => by_cases hu : username = "" <;> simp [presencePost, hrl, hu]

theorem sessionCreate_pairing_cases (cfg : Config) (serverKey : Option String)
    (username : String) (havePass : Bool) (gen : Nat → List Nat) (now : Ms)
    (st : ServerState)
    (hkey : cfg.robloxServerKey ≠ "") (hhdr : serverKey = some cfg.robloxServerKey)
    (huser : username ≠ "") :
    ((sessionCreate cfg serverKey username havePass gen now st).state.sessions =
        (cleanupSessions now st).sessions ∧
      (sessionCreate cfg serverKey username havePass gen now st).state.sessionsByUser =
        (cleanupSessions now st).sessionsByUser) ∨
    ((sessionCreate cfg serverKey username havePass gen now st).state.sessions =
        sessionsAfterPreempt (cleanupSessions now st) (jsToLower username) ∧
      (sessionCreate cfg serverKey username havePass gen now st).state.sessionsByUser =
        mset (cleanupSessions now st).sessionsByUser (jsToLower username) none) ∨
    (∃ code,
      sessionsAfterPreempt (cleanupSessions now st) (jsToLower username) code = none ∧
      (sessionCreate cfg serverKey username havePass gen now st).state.sessions =
        mset (sessionsAfterPreempt (cleanupSessions now st) (jsToLower username)) code
          (some ⟨jsToLower username, havePass, now + SESSION_TTL_MS⟩) ∧
      (sessionCreate cfg serverKey username havePass gen now st).state.sessionsByUser =
        mset (mset (cleanupSessions now st).sessionsByUser (jsToLower username) none)
          (jsToLower username) (some code)) := by
  by_cases hg : presenceInGame (cleanupSessions now st) (jsToLower username)
  · rcases hpick : pickFreshCode (sessionsAfterPreempt (cleanupSessions now st)
        (jsToLower username)) gen with _ | code
    · right; left
      constructor <;> simp [sessionCreate, hkey, hhdr, huser, hg, hpick]
    · right; right
      obtain ⟨i, hi, hcodeEq, hfresh⟩ := pickFreshCode_some _ _ _ hpick
      exact ⟨code, hfresh,
        by simp [sessionCreate, hkey, hhdr, huser, hg, hpick],
        by simp [sessionCreate, hkey, hhdr, huser, hg, hpick]⟩
  · left
    constructor <;> simp [sessionCreate, hkey, hhdr, huser, hg]

theorem sessionVerify_pairing_cases (cfg : Config) (ip code : String) (now : Ms)
    (st : ServerState)
    (hrl : (rateLimit "verify" ip "" now st.hits).1 = false) (hcode : code ≠ "") :
    ((sessionVerify cfg ip code now st).1.sessions =
        (cleanupSessions now
          { st with hits := (rateLimit "verify" ip "" now st.hits).2 }).sessions ∧
      (sessionVerify cfg ip code now st).1.sessionsByUser =
        (cleanupSessions now
          { st with hits := (rateLimit "verify" ip "" now st.hits).2 }).sessionsByUser) ∨
    (∃ sess, (cleanupSessions now
        { st with hits := (rateLimit "verify" ip "" now st.hits).2 }).sessions
        (jsToUpper (jsTrim code)) = some sess ∧
      (sessionVerify cfg ip code now st).1.sessions =
        mset (cleanupSessions now
          { st with hits := (rateLimit "verify" ip "" now st.hits).2 }).sessions
          (jsToUpper (jsTrim code)) none ∧
      (sessionVerify cfg ip code now st).1.sessionsByUser =
        (if (cleanupSessions now
              { st with hits := (rateLimit "verify" ip "" now st.hits).2 }).sessionsByUser
              sess.username = some (jsToUpper (jsTrim code))
         then mset (cleanupSessions now
              { st with hits := (rateLimit "verify" ip "" now st.hits).2 }).sessionsByUser
              sess.username none
         else (cleanupSessions now
              { st with hits := (rateLimit "verify" ip "" now st.hits).2 }).sessionsByUser)) := by
  cases hfound : (cleanupSessions now
      { st with hits := (rateLimit "verify" ip "" now st.hits).2 }).sessions
      (jsToUpper (jsTrim code)) with
  | none =>
    left
    constructor <;> simp [sessionVerify, hrl, hcode, hfound]
  | some sess =>
    right
    refine ⟨sess, rfl, ?_, ?_⟩ <;>
      by_cases hg : presenceInGame (cleanupSessions now
        { st with hits := (rateLimit "verify" ip "" now st.hits).2 }) sess.username <;>
      simp [sessionVerify, hrl, hcode, hfound, hg]

/-- The reachable states of the pairing maps: the empty start, presence
posts (which leave the pairing maps untouched), and the three operations
that touch the pairing maps — code issuance, redemption and the periodic
session GC — each running at a time `now` not before the previous
pairing-map operation, and each actually reaching its cleanup (the guards
that return before `cleanupSessions()` are hypotheses).  The second
component is the time of the most recent pairing-map operation. -/
inductive PairReach : ServerState → Ms → Prop
  | init (t : Ms) : PairReach emptyState t
  | presenceStep (ip username : String) (inGame : Option Bool) (havePass : Bool)
      (now : Ms) {st : ServerState} {pt : Ms} (h : PairReach st pt) :
      PairReach (presencePost ip username inGame havePass now st).1 pt
  | createStep (cfg : Config) (serverKey : Option String) (username : String)
      (havePass : Bool) (gen : Nat → List Nat) (now : Ms) {st : ServerState} {pt : Ms}
      (h : PairReach st pt) (hmono : pt ≤ now)
      (hkey : cfg.robloxServerKey ≠ "") (hhdr : serverKey = some cfg.robloxServerKey)
      (huser : username ≠ "") :
      PairReach (sessionCreate cfg serverKey username havePass gen now st).state now
  | verifyStep (cfg : Config) (ip code : String) (now : Ms) {st : ServerState} {pt : Ms}
      (h : PairReach st pt) (hmono : pt ≤ now)
      (hrl : (rateLimit "verify" ip "" now st.hits).1 = false) (hcode : code ≠ "") :
      PairReach (sessionVerify cfg ip code now st).1 now
  | gcStep (now : Ms) {st : ServerState} {pt : Ms} (h : PairReach st pt)
      (hmono : pt ≤ now) :
      PairReach (cleanupSessions now st) now

theorem pairReach_inv {st : ServerState} {pt : Ms} (h : PairReach st pt) :
    PairInvM st.sessions st.sessionsByUser pt := by
  induction h with
  | init t =>
    refine ⟨?_, ?_, ?_⟩ <;> intro _ _ h' <;> cases h'
  | presenceStep ip username inGame havePass now h ih =>
    obtain ⟨h1, h2⟩ := presencePost_pairing ip username inGame havePass now _
    rw [h1, h2]
    exact ih
  | createStep cfg serverKey username havePass gen now h hmono hkey hhdr huser ih =>
    rcases sessionCreate_pairing_cases cfg serverKey username havePass gen now _
        hkey hhdr huser with ⟨h1, h2⟩ | ⟨h1, h2⟩ | ⟨code, hfresh, h1, h2⟩
    · rw [h1, h2]
      exact cleanup_pairinvM now ih
    · rw [h1, h2]
      exact (preempt_pairinvM _ (cleanup_pairinvM now ih)).1
    · rw [h1, h2]
      obtain ⟨hinv1, hnoU⟩ := preempt_pairinvM (jsToLower username)
        (cleanup_pairinvM now ih)
      exact insert_pairinvM _ _ havePass hinv1 hnoU
        (jsToLower_ne_empty username huser) hfresh
  | verifyStep cfg ip code now h hmono hrl hcode ih =>
    rcases sessionVerify_pairing_cases cfg ip code now _ hrl hcode with
      ⟨h1, h2⟩ | ⟨sess, hfound, h1, h2⟩
    · rw [h1, h2]
      exact cleanup_pairinvM now ih
    · rw [h1, h2]
      exact delete_pairinvM _ sess (cleanup_pairinvM now ih) hfound
  | gcStep now h hmono ih =>
    exact cleanup_pairinvM now ih

/-- Claim C5 (amended).  At every reachable state, and for every time `T`
not after the most recent pairing-map operation (issuance, redemption or
session GC), the secondary index `sessionsByUser` contains a user `U` iff
some code `C` has `sessions[C].username = U` and `sessions[C].exp > T`; each
of those operations, run at a time not before the previous one, preserves
this.  (For times `T` beyond the last pairing-map operation the equivalence
can fail until the next operation runs — see the counterexample.) -/
theorem pairing_index_invariant (st : ServerState) (pt : Ms) (h : PairReach st pt)
    (T : Ms) (hT : T ≤ pt) (U : String) :
    (st.sessionsByUser U).isSome = true ↔
      ∃ C s, st.sessions C = some s ∧ s.username = U ∧ T < s.exp := by
  obtain ⟨ha, hb, hc⟩ := pairReach_inv h
  constructor
  · intro hsome
    obtain ⟨c, hch⟩ := Option.isSome_iff_exists.mp hsome
    obtain ⟨s, hS, hu⟩ := ha U c hch
    exact ⟨c, s, hS, hu, lt_of_le_of_lt hT (hc c s hS).2⟩
  · rintro ⟨C, s, hS, hu, _⟩
    rw [← hu, hb C s hS]
    rfl

theorem pairing_index_invariant_witness :
    (emptyState.sessionsByUser "alice").isSome = true ↔
      ∃ C s, emptyState.sessions C = some s ∧ s.username = "alice" ∧ (0 : Ms) < s.exp :=
  pairing_index_invariant emptyState 0 (.init 0) 0 (le_refl 0) "alice"

/-- The state reached by a presence post for Alice followed by an
authorized `POST /session/create` at time 0, which stores the code
`AAAAAAA` with `exp = 120000`. -/
def stAfterCreate : ServerState :=
  (sessionCreate cfgNoSecret (some "k") "Alice" false (fun _ => [0, 0, 0, 0, 0, 0, 0]) 0
    (presencePost "ip" "Alice" (some true) false 0 emptyState).1).state

/-- Claim C5, counterexample to the original wording: at the reachable state
`stAfterCreate` the secondary index contains alice, but for `T = 120000`
(the stored expiry, before any further operation has run) no code has
`exp > T`; so the claimed equivalence does not hold "at every time T" — it
holds only for times up to the last pairing-map operation. -/
theorem pairing_index_not_for_all_T :
    PairReach stAfterCreate 0 ∧
    (stAfterCreate.sessionsByUser "alice").isSome = true ∧
    (∀ C s, stAfterCreate.sessions C = some s → s.username = "alice" →
      s.exp ≤ 120000) := by
  have hreach : PairReach stAfterCreate 0 :=
    .createStep cfgNoSecret (some "k") "Alice" false (fun _ => [0, 0, 0, 0, 0, 0, 0]) 0
      (.presenceStep "ip" "Alice" (some true) false 0 (.init 0)) (le_refl 0)
      (by decide) rfl (by decide)
  refine ⟨hreach, by decide, ?_⟩
  intro C s hC hu
  obtain ⟨ha, hb, hc⟩ := pairReach_inv hreach
  have hB := hb C s hC
  rw [hu] at hB
  have hBval : stAfterCreate.sessionsByUser "alice" = some "AAAAAAA" := by decide
  rw [hBval] at hB
  injection hB with hB2
  subst hB2
  have hSval : stAfterCreate.sessions "AAAAAAA" = some ⟨"alice", false, 120000⟩ := by
    decide
  rw [hSval] at hC
  injection hC with hC2
  rw [← hC2]

end RPA
